import Mathlib

/-!
Verification of the cache-backed aggregation and real-time fan-out layer of a
disaster-response platform, against its JavaScript source.

The embedding is shallow:
* the Supabase `cache` table (`key text PRIMARY KEY, value jsonb, expires_at
  timestamptz`) is a list of `CacheEntry` records with at most one entry per
  key reachable by construction; timestamps are integers (milliseconds since
  epoch), matching the millisecond precision of JavaScript `Date`;
* `CacheService.get/set/delete` (src/server/services/cache.js) become pure
  state-passing functions `cacheGet`, `cacheSet`, `cacheDelete`; the current
  time `new Date()` is an explicit parameter;
* `set` computes `expiresAt.setHours(expiresAt.getHours() + ttlHours)`.
  ECMAScript `setHours` truncates its argument toward zero (`MakeTime` applies
  `ToIntegerOrInfinity` to each component), so the number of hours actually
  added is `truncTo0 (h + ttlHours) - h`, where `h` is the local hour field of
  the write time; `h` is abstracted as an explicit parameter;
* external HTTP providers (Google / Nominatim geocoding, the Hugging Face NER
  call) are oracle parameters `String → Option _`, where `none` means "request
  failed or returned no candidates";
* Socket.IO room delivery is modelled as a membership relation, following the
  specification of the fan-out channel since the Socket.IO library is not part
  of this repository.
-/

/-- One row of the `cache` table: `key`, `value`, `expires_at`
(src/supabase/migrations: `key text PRIMARY KEY, value jsonb NOT NULL,
expires_at timestamptz NOT NULL`). -/
structure CacheEntry (α : Type) where
  key : String
  value : α
  expires_at : ℤ
deriving DecidableEq, Repr

/-- The `select ... .eq('key', key).single()` query: the first (and, keys being
a primary key, only) row whose key matches. -/
def cacheLookup {α : Type} (cache : List (CacheEntry α)) (key : String) :
    Option (CacheEntry α) :=
  cache.find? (fun e => e.key == key)

/-- `CacheService.delete(key)`: `delete().eq('key', key)` removes every row
whose key matches (src/server/services/cache.js lines 52-61). -/
def cacheDelete {α : Type} (cache : List (CacheEntry α)) (key : String) :
    List (CacheEntry α) :=
  cache.filter (fun e => e.key != key)

/-- `CacheService.get(key)` (src/server/services/cache.js lines 8-29): look the
key up; on a missing row return `null`; if `new Date() > new Date(expires_at)`
(strict comparison) delete the row and return `null`; otherwise return the
stored value.  Returns the result together with the storage state after the
call. -/
def cacheGet {α : Type} (now : ℤ) (cache : List (CacheEntry α)) (key : String) :
    Option α × List (CacheEntry α) :=
  match cacheLookup cache key with
  | none => (none, cache)
  | some e =>
    if e.expires_at < now then (none, cacheDelete cache key)
    else (some e.value, cache)

/-- ECMAScript `ToIntegerOrInfinity` on a finite rational: truncation toward
zero.  `Date.prototype.setHours` passes its argument through `MakeTime`, which
applies this truncation to the hour component. -/
def truncTo0 (q : ℚ) : ℤ :=
  if 0 ≤ q then ⌊q⌋ else -⌊-q⌋

/-- The number of hours `expiresAt.setHours(expiresAt.getHours() + ttlHours)`
actually advances the date by, when the local hour field of the write time is
`h` (an integer in 0..23): the hour field becomes `truncTo0 (h + ttlHours)`,
so the date moves by that minus `h` hours (day overflow is handled by
`MakeDay`, so the shift is exact in milliseconds). -/
def jsSetHoursDelta (h : ℕ) (ttlHours : ℚ) : ℤ :=
  truncTo0 ((h : ℚ) + ttlHours) - h

/-- The `expires_at` value computed by `CacheService.set` at write time `now`
whose local hour field is `h`. -/
def expiresAtOfWrite (now : ℤ) (h : ℕ) (ttlHours : ℚ) : ℤ :=
  now + 3600000 * jsSetHoursDelta h ttlHours

/-- `CacheService.set(key, value, ttlHours)` (src/server/services/cache.js
lines 31-50): upsert keyed by `key` (primary-key upsert replaces the row with
the same key) with the computed `expires_at`. -/
def cacheSet {α : Type} (now : ℤ) (h : ℕ) (cache : List (CacheEntry α))
    (key : String) (value : α) (ttlHours : ℚ) : List (CacheEntry α) :=
  ⟨key, value, expiresAtOfWrite now h ttlHours⟩ :: cacheDelete cache key

/-- After an explicit delete, a lookup for the deleted key finds nothing. -/
theorem cacheLookup_cacheDelete {α : Type} (cache : List (CacheEntry α))
    (key : String) : cacheLookup (cacheDelete cache key) key = none := by
  induction cache with
  | nil => rfl
  | cons e t ih =>
    by_cases h : e.key = key
    · simp only [cacheDelete, List.filter_cons] at ih ⊢
      simp [h, ih]
    · simp only [cacheDelete, cacheLookup, List.filter_cons] at ih ⊢
      simp [List.find?, h, ih]

/-- Claim C1 as stated: a `get` returns the stored value iff the entry exists
and the current time is strictly before `expires_at`; at or past `expires_at`
the result is absent and the entry is removed (instantiated at integer
values). -/
def c1GetClaim : Prop :=
  ∀ (now : ℤ) (cache : List (CacheEntry ℤ)) (key : String) (e : CacheEntry ℤ),
    cacheLookup cache key = some e →
      ((now < e.expires_at → (cacheGet now cache key).1 = some e.value) ∧
       (e.expires_at ≤ now →
         (cacheGet now cache key).1 = none ∧
         cacheLookup (cacheGet now cache key).2 key = none))

/-- C1, counterexample: at `now = expires_at` exactly, `get` still returns the
stored value and leaves the entry in place, because the code expires only on
the strict comparison `new Date() > new Date(expires_at)`; so the claim,
which demands absence once `now ≥ expires_at`, is false. -/
theorem c1_get_boundary_counterexample : ¬ c1GetClaim := by
  intro h
  have h0 := (h 0 [⟨"k", 5, 0⟩] "k" ⟨"k", 5, 0⟩ rfl).2 le_rfl
  have : (cacheGet 0 [(⟨"k", 5, 0⟩ : CacheEntry ℤ)] "k").1 = some 5 := by
    simp [cacheGet, cacheLookup, List.find?]
  rw [this] at h0
  exact Option.noConfusion h0.1

/-- C1, amended: `get` returns the stored value iff an entry for the key
exists and the current time is at or before its `expires_at`; once the
current time is strictly past `expires_at`, `get` returns absent (null), the
expired entry is deleted from storage, and a subsequent lookup confirms
removal. -/
theorem cacheGet_expiry_correct {α : Type} (now : ℤ)
    (cache : List (CacheEntry α)) (key : String) :
    (cacheLookup cache key = none → cacheGet now cache key = (none, cache)) ∧
    (∀ e, cacheLookup cache key = some e →
      ((now ≤ e.expires_at → cacheGet now cache key = (some e.value, cache)) ∧
       (e.expires_at < now →
         cacheGet now cache key = (none, cacheDelete cache key) ∧
         cacheLookup (cacheGet now cache key).2 key = none))) := by
  constructor
  · intro hmiss
    simp [cacheGet, hmiss]
  · intro e hhit
    constructor
    · intro hle
      simp [cacheGet, hhit, not_lt.mpr hle]
    · intro hlt
      have hres : cacheGet now cache key = (none, cacheDelete cache key) := by
        simp [cacheGet, hhit, hlt]
      refine ⟨hres, ?_⟩
      rw [hres]
      exact cacheLookup_cacheDelete cache key

/-- C1 witness: the amended characterization evaluated on a one-entry store,
read once while fresh (`now = 50 ≤ 100`) and once expired (`now = 200`). -/
theorem cacheGet_expiry_correct_witness :
    cacheGet 50 [(⟨"k", 7, 100⟩ : CacheEntry ℤ)] "k" =
      (some 7, [⟨"k", 7, 100⟩]) ∧
    cacheGet 200 [(⟨"k", 7, 100⟩ : CacheEntry ℤ)] "k" = (none, []) := by
  constructor
  · exact ((cacheGet_expiry_correct 50 [⟨"k", 7, 100⟩] "k").2 ⟨"k", 7, 100⟩
      (by rfl)).1 (by decide)
  · have h := ((cacheGet_expiry_correct 200 [(⟨"k", 7, 100⟩ : CacheEntry ℤ)]
      "k").2 ⟨"k", 7, 100⟩ (by rfl)).2 (by decide)
    simpa [cacheDelete] using h.1

/-- Appending on the left is cancellable for strings. -/
theorem string_append_left_cancel {s t u : String} : s ++ t = s ++ u ↔ t = u := by
  constructor
  · intro h
    apply String.ext
    have hd := congrArg String.data h
    simp only [String.data_append] at hd
    exact List.append_cancel_left hd
  · intro h
    rw [h]

/-- The social-media feed cache key, the template literal
`` `social_media_${disasterId}_${tags.join('_')}` ``
(src/server/services/geocoding.js, `SocialMediaService.fetchSocialMediaReports`
line 93); `tags.join('_')` is `String.intercalate "_"`.  The grouping of the
concatenations is irrelevant to the resulting string. -/
def socialMediaCacheKey (disasterId : String) (tags : List String) : String :=
  "social_media_" ++ (disasterId ++ ("_" ++ String.intercalate "_" tags))

/-- Claim C2 as stated: the key is invariant under reordering/duplication of
the tag list (same tag set, same key), and semantically distinct
(disasterId, tag-set) queries never produce the same key. -/
def c2KeyClaim : Prop :=
  (∀ (d : String) (t1 t2 : List String), (∀ x, x ∈ t1 ↔ x ∈ t2) →
     socialMediaCacheKey d t1 = socialMediaCacheKey d t2) ∧
  (∀ (d1 d2 : String) (t1 t2 : List String),
     (d1 ≠ d2 ∨ ¬ (∀ x, x ∈ t1 ↔ x ∈ t2)) →
     socialMediaCacheKey d1 t1 ≠ socialMediaCacheKey d2 t2)

/-- C2, counterexample: the key is the plain order-sensitive underscore join,
so `["a", "b"]` and `["b", "a"]` (the same tag set) give the different keys
`social_media_d_a_b` and `social_media_d_b_a`, refuting the canonicalization
half of the claim; moreover `["a", "b"]` and the distinct singleton tag list
`["a_b"]` both give `social_media_d_a_b`, refuting the no-collision half. -/
theorem c2_key_counterexample : ¬ c2KeyClaim := by
  intro h
  have hperm : ∀ x, x ∈ ["a", "b"] ↔ x ∈ ["b", "a"] := by
    intro x
    simp [or_comm]
  have := h.1 "d" ["a", "b"] ["b", "a"] hperm
  have hne : socialMediaCacheKey "d" ["a", "b"] ≠
      socialMediaCacheKey "d" ["b", "a"] := by decide
  exact hne this

/-- C2, amended: the key is the plain concatenation
`social_media_` + disasterId + `_` + tags joined with `_` (no sorting, no
de-duplication): it is deterministic, and two calls share a key exactly when
the serialized remainders `disasterId_tag1_..._tagN` coincide — so tag lists
differing only in order generally produce different keys, and distinct
(disasterId, tag-list) queries can collide when their underscore joins
coincide (for example `("d", ["a", "b"])` and `("d", ["a_b"])`). -/
theorem socialMediaCacheKey_eq_iff (d1 d2 : String) (t1 t2 : List String) :
    socialMediaCacheKey d1 t1 = socialMediaCacheKey d2 t2 ↔
      d1 ++ ("_" ++ String.intercalate "_" t1) =
        d2 ++ ("_" ++ String.intercalate "_" t2) :=
  string_append_left_cancel

/-- C2 witness: the amended characterization applied to the concrete collision
`("d", ["a", "b"])` versus `("d", ["a_b"])`: the serialized remainders agree,
hence so do the keys. -/
theorem socialMediaCacheKey_eq_iff_witness :
    socialMediaCacheKey "d" ["a", "b"] = socialMediaCacheKey "d" ["a_b"] :=
  (socialMediaCacheKey_eq_iff "d" "d" ["a", "b"] ["a_b"]).mpr (by decide)

/-- JavaScript `haystack.includes(needle)` on lists of characters: some suffix
of the haystack starts with the needle. -/
def listIncludes {α : Type} [BEq α] (hay needle : List α) : Bool :=
  needle.isPrefixOf hay ||
    match hay with
    | [] => false
    | _ :: t => listIncludes t needle

/-- JavaScript `String.prototype.includes`: substring containment. -/
def strIncludes (s pat : String) : Bool :=
  listIncludes s.data pat.data

/-- `listIncludes` decides the infix relation. -/
theorem listIncludes_iff {α : Type} [BEq α] [LawfulBEq α]
    (hay needle : List α) : listIncludes hay needle = true ↔ needle <:+: hay := by
  induction hay with
  | nil =>
    simp [listIncludes, List.isPrefixOf_iff_prefix]
  | cons c t ih =>
    rw [listIncludes]
    simp [List.isPrefixOf_iff_prefix, ih, List.infix_cons_iff]

/-- `strIncludes` decides substring containment on the character lists. -/
theorem strIncludes_iff (s pat : String) :
    strIncludes s pat = true ↔ pat.data <:+: s.data :=
  listIncludes_iff s.data pat.data

/-- JavaScript `String.prototype.toLowerCase` on the character list (on the
ASCII range used by this code it agrees with Unicode simple lowercasing). -/
def jsToLower (s : String) : String :=
  ⟨s.data.map Char.toLower⟩

/-- One mock social-media report, the shape produced by
`SocialMediaService.generateMockReports` (src/server/services/geocoding.js);
`timestamp` is in milliseconds since epoch (the code stores
`new Date(...).toISOString()`, an injective rendering of that instant). -/
structure Report where
  id : String
  user : String
  content : String
  timestamp : ℤ
  priority : String
  location : String
  keywords : List String
deriving DecidableEq, Repr

/-- The hard-coded `mockData` array of `generateMockReports`, parametrized by
the current time `now` (`Date.now()`). -/
def mockData (now : ℤ) : List Report :=
  [⟨"tweet_1", "citizen1",
    "#floodrelief Need food in Lower East Side NYC. Shelter is full, people waiting outside.",
    now - 2 * 60 * 60 * 1000, "high", "Lower East Side, NYC",
    ["food", "shelter", "need"]⟩,
   ⟨"tweet_2", "helper_nyc",
    "Offering free transportation to evacuation centers from Manhattan. DM for pickup #disasterhelp",
    now - 1 * 60 * 60 * 1000, "medium", "Manhattan, NYC",
    ["transportation", "evacuation", "help"]⟩,
   ⟨"tweet_3", "emergency_nyc",
    "URGENT: Water levels rising in Brooklyn. Residents in flood zones please evacuate immediately #emergency",
    now - 30 * 60 * 1000, "urgent", "Brooklyn, NYC",
    ["urgent", "evacuation", "emergency"]⟩,
   ⟨"tweet_4", "medical_volunteer",
    "Medical team available at Central Park emergency station. First aid and basic supplies #medicalhelp",
    now - 45 * 60 * 1000, "medium", "Central Park, NYC",
    ["medical", "first aid", "supplies"]⟩]

/-- The tag predicate of `generateMockReports`:
`tags.some(tag => report.keywords.some(keyword =>
keyword.toLowerCase().includes(tag.toLowerCase())))`. -/
def reportMatchesTags (tags : List String) (report : Report) : Bool :=
  tags.any (fun tag =>
    report.keywords.any (fun keyword =>
      strIncludes (jsToLower keyword) (jsToLower tag)))

/-- `SocialMediaService.generateMockReports(tags)`: when `tags` is non-empty,
filter `mockData` by the tag predicate; otherwise return `mockData`
unfiltered. -/
def generateMockReports (now : ℤ) (tags : List String) : List Report :=
  if tags.length > 0 then (mockData now).filter (reportMatchesTags tags)
  else mockData now

/-- Outcome of one `fetchSocialMediaReports` call: the returned list, the
cache afterwards, and whether the mock feed was recomputed (cache miss). -/
structure FeedOutcome where
  reports : List Report
  cache : List (CacheEntry (List Report))
  computed : Bool

/-- `SocialMediaService.fetchSocialMediaReports(disasterId, tags)`
(src/server/services/geocoding.js lines 92-115): on a cache hit return the
cached list; on a miss generate the mock reports and cache them with
`ttlHours = 0.5` (the `// 30 minutes TTL for social media` write). -/
def fetchSocialMediaReports (now : ℤ) (h : ℕ)
    (cache : List (CacheEntry (List Report))) (disasterId : String)
    (tags : List String) : FeedOutcome :=
  match cacheGet now cache (socialMediaCacheKey disasterId tags) with
  | (some v, c1) => ⟨v, c1, false⟩
  | (none, c1) =>
    let mockReports := generateMockReports now tags
    ⟨mockReports,
     cacheSet now h c1 (socialMediaCacheKey disasterId tags) mockReports (1 / 2),
     true⟩

/-- `setHours(getHours() + 0.5)` advances the clock by zero hours: the hour
component is truncated toward zero, so adding half an hour to an integer hour
field leaves it unchanged. -/
theorem jsSetHoursDelta_half (h : ℕ) : jsSetHoursDelta h (1 / 2) = 0 := by
  unfold jsSetHoursDelta truncTo0
  have h0 : (0 : ℚ) ≤ (h : ℚ) + 1 / 2 := by positivity
  rw [if_pos h0, add_comm, Int.floor_add_nat]
  have hhalf : ⌊(1 / 2 : ℚ)⌋ = 0 := by
    apply Int.floor_eq_zero_iff.mpr
    constructor <;> norm_num
  rw [hhalf]
  ring

/-- Half-hour TTL writes therefore expire at the moment of the write itself. -/
theorem expiresAtOfWrite_half (now : ℤ) (h : ℕ) :
    expiresAtOfWrite now h (1 / 2) = now := by
  unfold expiresAtOfWrite
  rw [jsSetHoursDelta_half]
  ring

/-- C3: the claim is what the code comment intends (`// 30 minutes TTL for
social media`), but `set` computes `expiresAt.setHours(getHours() + 0.5)`,
and `setHours` truncates `0.5`: the stored `expires_at` equals the write time
itself, so a second `fetchSocialMediaReports` with the same arguments at any
strictly later time — in particular within the 30-minute window — misses the
cache and recomputes the feed instead of returning the cached list. -/
theorem social_media_ttl_zero_bug (now : ℤ) (h : ℕ)
    (cache : List (CacheEntry (List Report))) (d : String) (tags : List String)
    (hmiss : (cacheGet now cache (socialMediaCacheKey d tags)).1 = none)
    (t2 : ℤ) (hlt : now < t2) (_hle : t2 ≤ now + 30 * 60 * 1000) :
    (fetchSocialMediaReports now h cache d tags).computed = true ∧
    cacheLookup (fetchSocialMediaReports now h cache d tags).cache
        (socialMediaCacheKey d tags) =
      some ⟨socialMediaCacheKey d tags,
            (fetchSocialMediaReports now h cache d tags).reports, now⟩ ∧
    (fetchSocialMediaReports t2 h
        (fetchSocialMediaReports now h cache d tags).cache d tags).computed =
      true := by
  rcases hc : cacheGet now cache (socialMediaCacheKey d tags) with ⟨r, c1⟩
  have hr : r = none := by rw [hc] at hmiss; exact hmiss
  subst hr
  have hfetch : fetchSocialMediaReports now h cache d tags =
      ⟨generateMockReports now tags,
       cacheSet now h c1 (socialMediaCacheKey d tags)
         (generateMockReports now tags) (1 / 2), true⟩ := by
    unfold fetchSocialMediaReports
    rw [hc]
  have hlook : cacheLookup
      (cacheSet now h c1 (socialMediaCacheKey d tags)
        (generateMockReports now tags) (1 / 2))
      (socialMediaCacheKey d tags) =
      some ⟨socialMediaCacheKey d tags, generateMockReports now tags, now⟩ := by
    unfold cacheSet
    rw [expiresAtOfWrite_half]
    unfold cacheLookup
    exact List.find?_cons_of_pos _ (by simp)
  have hget2 : cacheGet t2
      (cacheSet now h c1 (socialMediaCacheKey d tags)
        (generateMockReports now tags) (1 / 2))
      (socialMediaCacheKey d tags) =
      (none, cacheDelete
        (cacheSet now h c1 (socialMediaCacheKey d tags)
          (generateMockReports now tags) (1 / 2))
        (socialMediaCacheKey d tags)) := by
    unfold cacheGet
    rw [hlook]
    simp [hlt]
  rw [hfetch]
  refine ⟨rfl, hlook, ?_⟩
  unfold fetchSocialMediaReports
  rw [hget2]

/-- C3 witness: starting from an empty cache at time 0, the first fetch
recomputes and a retry one minute later (well inside 30 minutes) recomputes
again instead of hitting the cache. -/
theorem social_media_ttl_zero_bug_witness :
    (fetchSocialMediaReports 0 12 [] "d1" []).computed = true ∧
    (fetchSocialMediaReports 60000 12
        (fetchSocialMediaReports 0 12 [] "d1" []).cache "d1" []).computed =
      true := by
  have h := social_media_ttl_zero_bug 0 12 [] "d1" [] rfl 60000
    (by decide) (by decide)
  exact ⟨h.1, h.2.2⟩

/-- The base64 alphabet used by Node `Buffer.prototype.toString('base64')`. -/
def base64Chars : List Char :=
  "ABCDEFGHIJKLMNOPQRSTUVWXYZabcdefghijklmnopqrstuvwxyz0123456789+/".data

/-- Digit `n` (0..63) of the base64 alphabet. -/
def b64digit (n : ℕ) : Char :=
  base64Chars.getD n 'A'

/-- Standard base64 of a byte sequence (bytes as naturals below 256), with
`=` padding. -/
def base64Rec : List ℕ → List Char
  | [] => []
  | [a] => [b64digit (a / 4), b64digit (a % 4 * 16), '=', '=']
  | [a, b] =>
    [b64digit (a / 4), b64digit (a % 4 * 16 + b / 16), b64digit (b % 16 * 4),
     '=']
  | a :: b :: c :: rest =>
    b64digit (a / 4) :: b64digit (a % 4 * 16 + b / 16) ::
      b64digit (b % 16 * 4 + c / 64) :: b64digit (c % 64) :: base64Rec rest

/-- `Buffer.from(s).toString('base64')`: base64 over the UTF-8 bytes of `s`. -/
def base64 (s : String) : String :=
  ⟨base64Rec (s.toUTF8.data.toList.map (fun byte => byte.toNat))⟩

/-- The geocoding cache key `` `geocode_${Buffer.from(locationName).toString('base64')}` ``
(src/server/services/geocoding.js line 11). -/
def geocodeCacheKey (locationName : String) : String :=
  "geocode_" ++ base64 locationName

/-- A geocoding result `{ lat, lng }`. -/
structure Coordinates where
  lat : ℚ
  lng : ℚ
deriving DecidableEq, Repr

/-- Outcome of one `GeocodingService.geocodeLocation` call: the returned
value, the cache afterwards, and which providers were invoked. -/
structure GeoOutcome where
  result : Option Coordinates
  cache : List (CacheEntry Coordinates)
  googleCalled : Bool
  nominatimCalled : Bool

/-- `GeocodingService.geocodeLocation(locationName)`
(src/server/services/geocoding.js lines 10-38): consult the cache; on a miss
try Google, then — only if Google produced nothing — Nominatim; cache the
result (default `ttlHours = 1`) only when some provider produced one.  The
providers are oracles `String → Option Coordinates`; `none` covers both
"not configured / request failed" and "empty result set", each of which the
source maps to `null`. -/
def geocodeLocation (google nominatim : String → Option Coordinates)
    (now : ℤ) (h : ℕ) (cache : List (CacheEntry Coordinates))
    (locationName : String) : GeoOutcome :=
  match cacheGet now cache (geocodeCacheKey locationName) with
  | (some cached, c1) => ⟨some cached, c1, false, false⟩
  | (none, c1) =>
    match google locationName with
    | some result =>
      ⟨some result,
       cacheSet now h c1 (geocodeCacheKey locationName) result 1, true, false⟩
    | none =>
      match nominatim locationName with
      | some result =>
        ⟨some result,
         cacheSet now h c1 (geocodeCacheKey locationName) result 1, true, true⟩
      | none => ⟨none, c1, true, true⟩

/-- The provider fallback chain by itself: Google's answer if usable, else
Nominatim's. -/
def tryChain (google nominatim : String → Option Coordinates)
    (locationName : String) : Option Coordinates :=
  match google locationName with
  | some result => some result
  | none => nominatim locationName

/-- A cache state is chain-consistent when every stored geocoding entry holds
exactly what the provider chain currently resolves its location to.  Every
state reachable by `geocodeLocation` calls against fixed provider oracles
satisfies this: entries are only ever written with the chain's own answer. -/
def chainConsistent (google nominatim : String → Option Coordinates)
    (cache : List (CacheEntry Coordinates)) : Prop :=
  ∀ locationName e,
    cacheLookup cache (geocodeCacheKey locationName) = some e →
    tryChain google nominatim locationName = some e.value

/-- A successful `cacheGet` returns the value of a stored entry for the key. -/
theorem cacheGet_hit_lookup {α : Type} {now : ℤ} {cache : List (CacheEntry α)}
    {key : String} {v : α} {s : List (CacheEntry α)}
    (h : cacheGet now cache key = (some v, s)) :
    ∃ e, cacheLookup cache key = some e ∧ e.value = v := by
  unfold cacheGet at h
  rcases hl : cacheLookup cache key with _ | e
  · rw [hl] at h
    simp at h
  · rw [hl] at h
    by_cases hexp : e.expires_at < now
    · simp [hexp] at h
    · simp [hexp] at h
      exact ⟨e, rfl, h.1⟩

/-- C4: on a chain-consistent cache, the resolver short-circuits on the
ordered chain [Google, Nominatim]: whenever Google yields a usable result,
`geocodeLocation` returns exactly that result and never invokes Nominatim;
whenever Google yields nothing and Nominatim yields a result, the returned
coordinates are exactly Nominatim's. -/
theorem geocode_fallback_short_circuit
    (google nominatim : String → Option Coordinates) (now : ℤ) (h : ℕ)
    (cache : List (CacheEntry Coordinates)) (locationName : String)
    (hcons : chainConsistent google nominatim cache) :
    (∀ c, google locationName = some c →
      (geocodeLocation google nominatim now h cache locationName).result =
        some c ∧
      (geocodeLocation google nominatim now h cache
          locationName).nominatimCalled = false) ∧
    (google locationName = none → ∀ c, nominatim locationName = some c →
      (geocodeLocation google nominatim now h cache locationName).result =
        some c) := by
  rcases hc : cacheGet now cache (geocodeCacheKey locationName) with ⟨r, c1⟩
  rcases r with _ | v
  · have hloc : geocodeLocation google nominatim now h cache locationName =
        (match google locationName with
         | some result =>
           ⟨some result,
            cacheSet now h c1 (geocodeCacheKey locationName) result 1, true,
            false⟩
         | none =>
           match nominatim locationName with
           | some result =>
             ⟨some result,
              cacheSet now h c1 (geocodeCacheKey locationName) result 1, true,
              true⟩
           | none => ⟨none, c1, true, true⟩) := by
      unfold geocodeLocation
      rw [hc]
    constructor
    · intro c hg
      rw [hloc, hg]
      exact ⟨rfl, rfl⟩
    · intro hg c hn
      rw [hloc, hg, hn]
  · have hloc : geocodeLocation google nominatim now h cache locationName =
        ⟨some v, c1, false, false⟩ := by
      unfold geocodeLocation
      rw [hc]
    obtain ⟨e, hl, hv⟩ := cacheGet_hit_lookup hc
    have hchain := hcons locationName e hl
    constructor
    · intro c hg
      have : tryChain google nominatim locationName = some c := by
        unfold tryChain
        rw [hg]
      rw [this] at hchain
      rw [hloc]
      refine ⟨?_, rfl⟩
      simp only [Option.some.injEq] at hchain
      rw [← hv, hchain]
    · intro hg c hn
      have : tryChain google nominatim locationName = some c := by
        unfold tryChain
        rw [hg, hn]
      rw [this] at hchain
      rw [hloc]
      simp only [Option.some.injEq] at hchain
      rw [← hv, hchain]

/-- C4 witness: on the empty cache, with Google resolving `"Wall Street"` and
Nominatim resolving nothing, `geocodeLocation` returns Google's coordinates
without invoking Nominatim. -/
theorem geocode_fallback_short_circuit_witness :
    (geocodeLocation
        (fun l => if l = "Wall Street" then some ⟨407061, -740088⟩ else none)
        (fun _ => none) 0 12 [] "Wall Street").result =
      some ⟨407061, -740088⟩ ∧
    (geocodeLocation
        (fun l => if l = "Wall Street" then some ⟨407061, -740088⟩ else none)
        (fun _ => none) 0 12 [] "Wall Street").nominatimCalled = false :=
  (geocode_fallback_short_circuit
      (fun l => if l = "Wall Street" then some ⟨407061, -740088⟩ else none)
      (fun _ => none) 0 12 [] "Wall Street"
      (fun _ e he => by simp [cacheLookup] at he)).1
    ⟨407061, -740088⟩ (by simp)

/-- C5: failed resolutions are never cached.  When both providers fail on a
chain-consistent cache, `geocodeLocation` attempts both providers, returns
absent, performs no cache write (no entry for the key exists afterwards), and
an immediately retried call finds no cached entry and re-attempts both
providers. -/
theorem geocode_no_negative_caching
    (google nominatim : String → Option Coordinates) (now now2 : ℤ)
    (h h2 : ℕ) (cache : List (CacheEntry Coordinates)) (locationName : String)
    (hcons : chainConsistent google nominatim cache)
    (hg : google locationName = none) (hn : nominatim locationName = none) :
    (geocodeLocation google nominatim now h cache locationName).result =
      none ∧
    (geocodeLocation google nominatim now h cache
        locationName).googleCalled = true ∧
    (geocodeLocation google nominatim now h cache
        locationName).nominatimCalled = true ∧
    cacheLookup (geocodeLocation google nominatim now h cache
        locationName).cache (geocodeCacheKey locationName) = none ∧
    (geocodeLocation google nominatim now2 h2
        (geocodeLocation google nominatim now h cache locationName).cache
        locationName).googleCalled = true ∧
    (geocodeLocation google nominatim now2 h2
        (geocodeLocation google nominatim now h cache locationName).cache
        locationName).nominatimCalled = true := by
  have hnokey : cacheLookup cache (geocodeCacheKey locationName) = none := by
    rcases hl : cacheLookup cache (geocodeCacheKey locationName) with _ | e
    · rfl
    · have hchain := hcons locationName e hl
      unfold tryChain at hchain
      rw [hg, hn] at hchain
      exact absurd hchain (by simp)
  have hget : cacheGet now cache (geocodeCacheKey locationName) =
      (none, cache) := by
    unfold cacheGet
    rw [hnokey]
  have hloc : geocodeLocation google nominatim now h cache locationName =
      ⟨none, cache, true, true⟩ := by
    unfold geocodeLocation
    rw [hget, hg, hn]
  have hget2 : cacheGet now2 cache (geocodeCacheKey locationName) =
      (none, cache) := by
    unfold cacheGet
    rw [hnokey]
  have hloc2 : geocodeLocation google nominatim now2 h2 cache locationName =
      ⟨none, cache, true, true⟩ := by
    unfold geocodeLocation
    rw [hget2, hg, hn]
  rw [hloc]
  exact ⟨rfl, rfl, rfl, hnokey, by rw [hloc2], by rw [hloc2]⟩

/-- C5 witness: with both providers failing on `"Atlantis"`, the call on the
empty cache invokes both providers, caches nothing, and the retry invokes
both again. -/
theorem geocode_no_negative_caching_witness :
    (geocodeLocation (fun _ => none) (fun _ => none) 0 5 [] "Atlantis").result
      = none ∧
    cacheLookup
      (geocodeLocation (fun _ => none) (fun _ => none) 0 5 []
        "Atlantis").cache (geocodeCacheKey "Atlantis") = none ∧
    (geocodeLocation (fun _ => none) (fun _ => none) 60000 5
        (geocodeLocation (fun _ => none) (fun _ => none) 0 5 []
          "Atlantis").cache "Atlantis").googleCalled = true ∧
    (geocodeLocation (fun _ => none) (fun _ => none) 60000 5
        (geocodeLocation (fun _ => none) (fun _ => none) 0 5 []
          "Atlantis").cache "Atlantis").nominatimCalled = true := by
  have h := geocode_no_negative_caching (fun _ => none) (fun _ => none) 0
    60000 5 5 [] "Atlantis" (fun _ e he => by simp [cacheLookup] at he) rfl rfl
  exact ⟨h.1, h.2.2.2.1, h.2.2.2.2.1, h.2.2.2.2.2⟩

/-- The process-lifetime Socket.IO state: the currently connected socket ids
and the room-membership relation built up by `socket.join`. -/
structure SocketState where
  connected : List String
  rooms : List (String × String)

/-- `socket.join(room)`: add the (socket, room) pair to the membership
relation. -/
def joinRoom (st : SocketState) (sid room : String) : SocketState :=
  ⟨st.connected, (sid, room) :: st.rooms⟩

/-- Modelled from the spec: Socket.IO room delivery (`io.to(room).emit`) is
not part of this repository; per the fan-out contract, a scoped event is
delivered to exactly the currently connected sockets that are members of the
room. -/
def roomRecipients (st : SocketState) (room : String) : List String :=
  st.connected.filter (fun sid => decide ((sid, room) ∈ st.rooms))

/-- Modelled from the spec: `io.emit` (a global-scope event) is delivered to
every currently connected socket, regardless of room membership. -/
def globalRecipients (st : SocketState) : List String :=
  st.connected

/-- The `join_disaster` handler (server entry file, `io.on('connection')`):
`socket.join(`disaster_${disasterId}`)`. -/
def joinDisaster (st : SocketState) (sid disasterId : String) : SocketState :=
  joinRoom st sid ("disaster_" ++ disasterId)

/-- A disaster-scoped emit, e.g.
`req.io.to(`disaster_${disasterId}`).emit('social_media_updated', ...)`
(src/server/routes/socialMedia.js lines 36-40). -/
def scopedEmitRecipients (st : SocketState) (disasterId : String) :
    List String :=
  roomRecipients st ("disaster_" ++ disasterId)

/-- C6: fan-out is scoped by the membership relation — a connection whose
only subscriptions are to disaster `Y ≠ X` never receives an event scoped to
`X`; a connected socket subscribed to both `X` and `Y` receives events for
both; and a global-scope event reaches every currently connected socket
regardless of subscription. -/
theorem event_fanout_scoping (st : SocketState) (sid X Y : String) :
    ((∀ room, (sid, room) ∈ st.rooms → room = "disaster_" ++ Y) → X ≠ Y →
      sid ∉ scopedEmitRecipients st X) ∧
    (sid ∈ st.connected → (sid, "disaster_" ++ X) ∈ st.rooms →
      (sid, "disaster_" ++ Y) ∈ st.rooms →
      sid ∈ scopedEmitRecipients st X ∧ sid ∈ scopedEmitRecipients st Y) ∧
    (sid ∈ st.connected → sid ∈ globalRecipients st) := by
  refine ⟨?_, ?_, fun hconn => hconn⟩
  · intro honly hne hmem
    rcases List.mem_filter.mp hmem with ⟨-, hdec⟩
    have hroom : (sid, "disaster_" ++ X) ∈ st.rooms := of_decide_eq_true hdec
    have := honly _ hroom
    exact hne (string_append_left_cancel.mp this)
  · intro hconn hX hY
    constructor
    · exact List.mem_filter.mpr ⟨hconn, decide_eq_true hX⟩
    · exact List.mem_filter.mpr ⟨hconn, decide_eq_true hY⟩

/-- The concrete state of end-to-end scenario C: sockets `s1`, `s2`, `s3` are
connected; `s1` and `s2` have joined disaster `D1`, `s3` has joined `D2`. -/
def demoSocketState : SocketState :=
  joinDisaster (joinDisaster (joinDisaster ⟨["s1", "s2", "s3"], []⟩
    "s1" "D1") "s2" "D1") "s3" "D2"

/-- C6 witness: in scenario C, an event scoped to `D1` reaches `s1` (a `D1`
subscriber) but not `s3` (whose only subscription is `D2`), and the global
event reaches `s3` as well. -/
theorem event_fanout_scoping_witness :
    "s1" ∈ scopedEmitRecipients demoSocketState "D1" ∧
    "s3" ∉ scopedEmitRecipients demoSocketState "D1" ∧
    "s3" ∈ globalRecipients demoSocketState := by
  refine ⟨?_, ?_, ?_⟩
  · exact ((event_fanout_scoping demoSocketState "s1" "D1" "D1").2.1
      (by decide) (by decide) (by decide)).1
  · apply (event_fanout_scoping demoSocketState "s3" "D1" "D2").1
    · intro room hroom
      simp only [demoSocketState, joinDisaster, joinRoom, List.mem_cons,
        List.not_mem_nil, or_false, Prod.mk.injEq] at hroom
      rcases hroom with ⟨-, h⟩ | ⟨h, -⟩ | ⟨h, -⟩
      · exact h
      · exact absurd h (by decide)
      · exact absurd h (by decide)
    · decide
  · exact (event_fanout_scoping demoSocketState "s3" "D1" "D2").2.2
      (by decide)

/-- C7: with a non-empty tag list, a report is in the generated feed iff it is
one of the mock reports and at least one of its keywords, lowercased,
contains at least one lowercased requested tag as a substring; with an empty
tag list no filtering is applied. -/
theorem social_media_tag_filter (now : ℤ) :
    (∀ tags : List String, tags ≠ [] → ∀ r : Report,
      (r ∈ generateMockReports now tags ↔
        r ∈ mockData now ∧ ∃ tag ∈ tags, ∃ kw ∈ r.keywords,
          (jsToLower tag).data <:+: (jsToLower kw).data)) ∧
    generateMockReports now [] = mockData now := by
  constructor
  · intro tags hne r
    have hlen : tags.length > 0 := List.length_pos.mpr hne
    unfold generateMockReports
    rw [if_pos hlen, List.mem_filter]
    have hpred : reportMatchesTags tags r = true ↔
        ∃ tag ∈ tags, ∃ kw ∈ r.keywords,
          (jsToLower tag).data <:+: (jsToLower kw).data := by
      unfold reportMatchesTags
      simp only [List.any_eq_true, strIncludes_iff]
    rw [hpred]
  · rfl

/-- The first mock report as generated at `now = 0`. -/
def tweet1At0 : Report :=
  ⟨"tweet_1", "citizen1",
   "#floodrelief Need food in Lower East Side NYC. Shelter is full, people waiting outside.",
   -7200000, "high", "Lower East Side, NYC", ["food", "shelter", "need"]⟩

/-- C7 witness: the report with keywords `food, shelter, need` is included
under the filter tag `"foo"`, a proper substring of `"food"`. -/
theorem social_media_tag_filter_witness :
    tweet1At0 ∈ generateMockReports 0 ["foo"] :=
  ((social_media_tag_filter 0).1 ["foo"] (by decide) tweet1At0).mpr
    ⟨by decide, "foo", by decide, "food", by decide,
     (strIncludes_iff (jsToLower "food") (jsToLower "foo")).mp (by decide)⟩

/-- The fixed urgency keyword list of
`SocialMediaService.detectPriorityAlerts` (src/server/services/geocoding.js
line 172). -/
def urgentKeywords : List String :=
  ["urgent", "sos", "emergency", "help", "trapped", "critical"]

/-- `SocialMediaService.detectPriorityAlerts(reports)`: keep the reports whose
lowercased content contains one of the urgency keywords as a substring. -/
def detectPriorityAlerts (reports : List Report) : List Report :=
  reports.filter (fun report =>
    urgentKeywords.any (fun keyword =>
      strIncludes (jsToLower report.content) keyword))

/-- C10: the urgency keyword set includes `help` besides `urgent`, `sos`,
`emergency`, `trapped` and `critical`; every input report whose content
case-insensitively contains `help` as a substring is included in the output;
and the output is a subsequence of the input in original order. -/
theorem priority_alert_help_keyword :
    "help" ∈ urgentKeywords ∧
    (∀ (reports : List Report) (r : Report), r ∈ reports →
      "help".data <:+: (jsToLower r.content).data →
      r ∈ detectPriorityAlerts reports) ∧
    (∀ reports : List Report, (detectPriorityAlerts reports).Sublist reports) := by
  refine ⟨by decide, ?_, fun reports => List.filter_sublist reports⟩
  intro reports r hr hinf
  refine List.mem_filter.mpr ⟨hr, ?_⟩
  rw [List.any_eq_true]
  exact ⟨"help", by decide, (strIncludes_iff _ _).mpr hinf⟩

/-- The second mock report as generated at `now = 0`; its content contains
`help` only inside the offer hashtag `#disasterhelp`. -/
def tweet2At0 : Report :=
  ⟨"tweet_2", "helper_nyc",
   "Offering free transportation to evacuation centers from Manhattan. DM for pickup #disasterhelp",
   -3600000, "medium", "Manhattan, NYC",
   ["transportation", "evacuation", "help"]⟩

/-- C10 witness: the offer-of-help report (content matching `help` only via
`#disasterhelp`) is flagged as a priority alert. -/
theorem priority_alert_help_keyword_witness :
    tweet2At0 ∈ detectPriorityAlerts [tweet2At0] :=
  priority_alert_help_keyword.2.1 [tweet2At0] tweet2At0 (by decide)
    ((strIncludes_iff (jsToLower tweet2At0.content) "help").mp (by decide))

/-- One labeled span returned by the Hugging Face NER call
(`GeminiService.extractLocation`). -/
structure NEREntity where
  entity_group : String
  word : String
deriving DecidableEq, Repr

/-- The entity-group filter of `extractLocation`: keep `LOC`, `ORG`, `PER`
and `MISC` spans. -/
def nerGroupKept (e : NEREntity) : Bool :=
  e.entity_group == "LOC" || e.entity_group == "ORG" ||
    e.entity_group == "PER" || e.entity_group == "MISC"

/-- JavaScript `replace(/##/g, '')` specialized to the two-character pattern:
a left-to-right, non-overlapping removal of every `##` occurrence. -/
def stripHashPairs : List Char → List Char
  | '#' :: '#' :: t => stripHashPairs t
  | c :: t => c :: stripHashPairs t
  | [] => []

/-- `joined.replace(/##/g, '')` on a string. -/
def stripDoubleHash (s : String) : String :=
  ⟨stripHashPairs s.data⟩

/-- The post-processing of the NER response in `extractLocation`: keep the
location-like groups, drop the `[CLS]`/`[SEP]` control tokens, join the words
with spaces, then strip the `##` sub-word continuation markers. -/
def extractedPhrase (entities : List NEREntity) : String :=
  stripDoubleHash (String.intercalate " "
    (((entities.filter nerGroupKept).map (fun e => e.word)).filter
      (fun w => w != "[CLS]" && w != "[SEP]")))

/-- JavaScript `s || fallback` on strings: the empty string is falsy. -/
def jsOrDefault (s fallback : String) : String :=
  if s == "" then fallback else s

/-- The extraction cache key
`` `location_extract_${Buffer.from(description).toString('base64')}` ``. -/
def locationExtractKey (description : String) : String :=
  "location_extract_" ++ base64 description

/-- Outcome of one `GeminiService.extractLocation` call: the `location` field
of the returned object, the cache afterwards, and whether the NER service was
consulted. -/
structure ExtractOutcome where
  location : String
  cache : List (CacheEntry String)
  apiCalled : Bool

/-- `GeminiService.extractLocation(description)` (GeminiService source, lines
11-54): on a cache hit return the cached mapping; on a miss call the NER
service (oracle `api`, `none` = request threw), post-process its entities,
default an empty phrase to `Unknown`, cache the result with the default
one-hour TTL and return it; if the request threw, return the sentinel
`Location extraction failed` without caching. -/
def extractLocation (api : String → Option (List NEREntity)) (now : ℤ)
    (h : ℕ) (cache : List (CacheEntry String)) (description : String) :
    ExtractOutcome :=
  match cacheGet now cache (locationExtractKey description) with
  | (some cached, c1) => ⟨cached, c1, false⟩
  | (none, c1) =>
    match api description with
    | none => ⟨"Location extraction failed", c1, true⟩
    | some entities =>
      ⟨jsOrDefault (extractedPhrase entities) "Unknown",
       cacheSet now h c1 (locationExtractKey description)
         (jsOrDefault (extractedPhrase entities) "Unknown") 1, true⟩

/-- JavaScript truthiness of an optional string: `undefined` and the empty
string are falsy. -/
def jsFalsyStr : Option String → Bool
  | none => true
  | some s => s == ""

/-- The possible responses of `POST /geocode`
(src/server/routes/geocoding.js lines 10-60). -/
inductive GeocodeResponse where
  | badRequest (error : String)
  | extractionFailed (error : String) (extracted : Option String)
  | geocodeFailed (error : String) (locationName : String)
  | ok (extractedLocation : String) (coordinates : Coordinates)
deriving DecidableEq, Repr

/-- Outcome of one `POST /geocode` request: the response, the argument
`geocodeLocation` was invoked with (`none` when it was never invoked — hence
no geocoding provider was consulted), and the coordinates cache afterwards. -/
structure RouteOutcome where
  response : GeocodeResponse
  geocodeArg : Option String
  cache : List (CacheEntry Coordinates)

/-- The `POST /geocode` handler: `400` when both `description` and
`location_name` are falsy; extraction only when `location_name` is falsy and
`description` truthy; `422` (reporting the text) when the location to geocode
is falsy or is the failure sentinel, before any provider call; otherwise
geocode and answer `422` or the result.  The extraction adapter is passed as
the oracle `extract` (the `location` field it returns). -/
def postGeocode (google nominatim : String → Option Coordinates)
    (extract : String → String) (now : ℤ) (h : ℕ)
    (cache : List (CacheEntry Coordinates))
    (description location_name : Option String) : RouteOutcome :=
  if jsFalsyStr description && jsFalsyStr location_name then
    ⟨.badRequest "Description or location_name is required", none, cache⟩
  else
    let locationToGeocode : Option String :=
      if jsFalsyStr location_name && !(jsFalsyStr description) then
        some (extract (description.getD ""))
      else location_name
    if jsFalsyStr locationToGeocode ||
        (locationToGeocode == some "Location extraction failed") then
      ⟨.extractionFailed "Could not extract location from description"
        locationToGeocode, none, cache⟩
    else
      let loc := locationToGeocode.getD ""
      let o := geocodeLocation google nominatim now h cache loc
      match o.result with
      | none => ⟨.geocodeFailed "Could not geocode location" loc, some loc,
                 o.cache⟩
      | some c => ⟨.ok loc c, some loc, o.cache⟩

/-- C8: when no explicit location is given and extraction yields the failure
sentinel, the endpoint answers the 422-class `extractionFailed` response
reporting the offending text, never invokes `geocodeLocation` (hence no
geocoding provider), and leaves the cache untouched; and the extraction
adapter itself yields that sentinel exactly on a failed NER request (without
caching it). -/
theorem geocode_route_extraction_failed
    (google nominatim : String → Option Coordinates)
    (extract : String → String) (now : ℤ) (h : ℕ)
    (cache : List (CacheEntry Coordinates)) (d : String) (hd : d ≠ "")
    (hfail : extract d = "Location extraction failed") :
    postGeocode google nominatim extract now h cache (some d) none =
      ⟨.extractionFailed "Could not extract location from description"
        (some "Location extraction failed"), none, cache⟩ ∧
    (∀ (api : String → Option (List NEREntity)) (now2 : ℤ) (h2 : ℕ)
        (ecache : List (CacheEntry String)),
      (cacheGet now2 ecache (locationExtractKey d)).1 = none →
      api d = none →
      (extractLocation api now2 h2 ecache d).location =
        "Location extraction failed" ∧
      (extractLocation api now2 h2 ecache d).cache =
        (cacheGet now2 ecache (locationExtractKey d)).2) := by
  have hdb : (d == "") = false := beq_eq_false_iff_ne.mpr hd
  constructor
  · simp [postGeocode, jsFalsyStr, hdb, hfail]
  · intro api now2 h2 ecache hmiss hapi
    rcases hc : cacheGet now2 ecache (locationExtractKey d) with ⟨r, c1⟩
    have hr : r = none := by rw [hc] at hmiss; exact hmiss
    subst hr
    have hx : extractLocation api now2 h2 ecache d =
        ⟨"Location extraction failed", c1, true⟩ := by
      simp [extractLocation, hc, hapi]
    rw [hx]
    exact ⟨rfl, rfl⟩

/-- C8 witness: with a failing NER service and no providers, the request
`{description: "flood"}` gets the 422 extraction failure carrying the
sentinel, geocoding is never invoked, and the extraction adapter on the empty
cache produced the sentinel without caching it. -/
theorem geocode_route_extraction_failed_witness :
    postGeocode (fun _ => none) (fun _ => none)
        (fun _ => "Location extraction failed") 0 3 [] (some "flood") none =
      ⟨.extractionFailed "Could not extract location from description"
        (some "Location extraction failed"), none, []⟩ ∧
    (extractLocation (fun _ => none) 0 3 [] "flood").location =
      "Location extraction failed" ∧
    (extractLocation (fun _ => none) 0 3 [] "flood").cache = [] := by
  have h := geocode_route_extraction_failed (fun _ => none) (fun _ => none)
    (fun _ => "Location extraction failed") 0 3 [] "flood" (by decide) rfl
  have h2 := h.2 (fun _ => none) 0 3 [] rfl rfl
  exact ⟨h.1, h2.1, h2.2⟩

/-- C9: a successful NER response with no location entities makes
`extractLocation` return the second sentinel `Unknown` (cached, unlike the
failure sentinel), and the geocode endpoint does not treat `Unknown` as the
failure sentinel: it forwards the literal string `Unknown` to
`geocodeLocation`, i.e. to the provider chain. -/
theorem extraction_unknown_not_failure
    (api : String → Option (List NEREntity)) (now : ℤ) (h : ℕ)
    (cache : List (CacheEntry String)) (d : String)
    (entities : List NEREntity)
    (hmiss : (cacheGet now cache (locationExtractKey d)).1 = none)
    (hapi : api d = some entities)
    (hnoloc : ((entities.filter nerGroupKept).map (fun e => e.word)).filter
        (fun w => w != "[CLS]" && w != "[SEP]") = []) :
    (extractLocation api now h cache d).location = "Unknown" ∧
    (∃ e, cacheLookup (extractLocation api now h cache d).cache
        (locationExtractKey d) = some e ∧ e.value = "Unknown") ∧
    (∀ (google nominatim : String → Option Coordinates) (now2 : ℤ) (h2 : ℕ)
        (gcache : List (CacheEntry Coordinates)) (d2 : String)
        (extract : String → String), d2 ≠ "" → extract d2 = "Unknown" →
      (postGeocode google nominatim extract now2 h2 gcache (some d2)
          none).geocodeArg = some "Unknown") := by
  have hphrase : extractedPhrase entities = "" := by
    unfold extractedPhrase
    rw [hnoloc]
    rfl
  have hdef : jsOrDefault (extractedPhrase entities) "Unknown" = "Unknown" := by
    rw [hphrase]
    rfl
  rcases hc : cacheGet now cache (locationExtractKey d) with ⟨r, c1⟩
  have hr : r = none := by rw [hc] at hmiss; exact hmiss
  subst hr
  have hx : extractLocation api now h cache d =
      ⟨"Unknown",
       cacheSet now h c1 (locationExtractKey d) "Unknown" 1, true⟩ := by
    simp [extractLocation, hc, hapi, hdef]
  refine ⟨by rw [hx], ?_, ?_⟩
  · rw [hx]
    refine ⟨⟨locationExtractKey d, "Unknown", expiresAtOfWrite now h 1⟩,
      ?_, rfl⟩
    unfold cacheSet cacheLookup
    exact List.find?_cons_of_pos _ (by simp)
  · intro google nominatim now2 h2 gcache d2 extract hne hunk
    have hdb : (d2 == "") = false := beq_eq_false_iff_ne.mpr hne
    simp only [postGeocode, jsFalsyStr, hdb, hunk, Bool.false_and,
      Bool.and_false, Bool.and_true, Bool.true_and, Bool.not_false,
      Option.getD_some]
    rcases hres : (geocodeLocation google nominatim now2 h2 gcache
        "Unknown").result with _ | c <;> simp [hres]

/-- C9 witness: an NER response that succeeds with an empty entity list on the
empty cache yields `Unknown`, caches it, and the endpoint forwards `Unknown`
to the provider chain. -/
theorem extraction_unknown_not_failure_witness :
    (extractLocation (fun _ => some []) 0 3 [] "no places here").location =
      "Unknown" ∧
    (postGeocode (fun _ => none) (fun _ => none) (fun _ => "Unknown") 0 3 []
        (some "no places here") none).geocodeArg = some "Unknown" := by
  have h := extraction_unknown_not_failure (fun _ => some []) 0 3 []
    "no places here" [] rfl rfl rfl
  exact ⟨h.1, h.2.2 (fun _ => none) (fun _ => none) 0 3 [] "no places here"
    (fun _ => "Unknown") (by decide) rfl⟩
